import Mathlib

/-
Verification of the core of the LLM_Observibility backend:
 * the async metrics pipeline (backend/app/services/metrics_service.py):
   bounded event queue, batch flusher with count- and time-triggers,
   graceful drain on shutdown;
 * the Redis-backed fixed-window rate limiter and realtime counters
   (backend/app/services/redis_service.py);
 * configuration defaults (backend/app/config.py) and the event schema
   (backend/app/models/schemas.py).

Modelling conventions:
 * wall-clock time is carried in whole seconds as `Int` (the code uses
   `datetime.utcnow()` and compares elapsed `total_seconds()` against the
   integer flush interval); each worker-loop iteration is given the single
   timestamp at which it runs;
 * numeric payload fields of an event that the pipeline never inspects
   (cost, tokens/sec) are carried as rationals; their binary floating-point
   representation in Python is outside the scope of this development;
 * Redis is modelled as a total map from string keys to counter values
   (a missing key reads as 0, exactly what `get_counter` returns for an
   absent key), plus two flags: whether a connection object exists
   (`self.redis is not None`) and whether store operations raise
   (server unreachable).  Each `get_counter` / `increment_counter` call
   absorbs its own store errors and returns 0, as in the source;
 * TTLs passed to `increment_counter` are kept in the signature but expiry
   is not modelled: every claim below stays inside a single rate window.
-/

/-! ## Data model: backend/app/models/schemas.py -/

/-- UserRole enumeration. -/
inductive UserRole
  | employee | manager | admin
  deriving DecidableEq

/-- RequestStatus enumeration. -/
inductive RequestStatus
  | success | error | timeout | rate_limited
  deriving DecidableEq

/-- Component enumeration. -/
inductive Component
  | api_router | semantic_cache | ai_router | llama_guard | rbac
  | nemo_guardrails | pii_firewall | groq_client
  deriving DecidableEq

/-- Schema for creating a metrics record (class MetricsCreate). -/
structure MetricsCreate where
  timestamp : Int
  user_id : String
  user_role : UserRole
  model : String
  input_tokens : Int
  output_tokens : Int
  latency_ms : Int
  ttft_ms : Option Int
  tokens_per_second : Option ℚ
  cost_usd : ℚ
  status : RequestStatus
  error_type : Option String
  error_message : Option String
  component : Component
  cache_hit : Bool
  trace_id : Option String
  span_id : Option String
  request_id : String
  deriving DecidableEq

/-- A concrete sample event, used to instantiate witnesses. -/
def m0 : MetricsCreate :=
  { timestamp := 0, user_id := "u1", user_role := .employee,
    model := "llama-3.1-8b-instant", input_tokens := 10, output_tokens := 20,
    latency_ms := 100, ttft_ms := none, tokens_per_second := none,
    cost_usd := 0, status := .success, error_type := none,
    error_message := none, component := .groq_client, cache_hit := false,
    trace_id := none, span_id := none, request_id := "r1" }

/-! ## Configuration: backend/app/config.py -/

/-- The subset of `Settings` the pipeline and rate limiter read. -/
structure Settings where
  RATE_LIMIT_PER_MINUTE : Nat
  RATE_LIMIT_PER_HOUR : Nat
  METRICS_QUEUE_SIZE : Nat
  METRICS_BATCH_SIZE : Nat
  METRICS_FLUSH_INTERVAL : Nat
  deriving DecidableEq

/-- The defaults declared in config.py. -/
def defaultSettings : Settings :=
  { RATE_LIMIT_PER_MINUTE := 60, RATE_LIMIT_PER_HOUR := 1000,
    METRICS_QUEUE_SIZE := 1000, METRICS_BATCH_SIZE := 10,
    METRICS_FLUSH_INTERVAL := 5 }

/-! ## Event queue: MetricsService.log_metric

`self.metrics_queue` is an `asyncio.Queue(maxsize=settings.METRICS_QUEUE_SIZE)`;
the queue contents are modelled as a FIFO list (head = next to be dequeued). -/

/-- Outcome of `await queue.put(item)` on an `asyncio.Queue` with a maxsize:
when the queue has room the item is appended and the coroutine completes;
when the queue is at maxsize the coroutine suspends until space frees.
`asyncio.Queue.put` never raises `QueueFull` (only `put_nowait` does). -/
inductive PutOutcome
  | completes (q : List MetricsCreate)
  | suspends
  deriving DecidableEq

/-- Semantics of `await self.metrics_queue.put(metric)`. -/
def asyncioQueuePut (maxsize : Nat) (q : List MetricsCreate) (m : MetricsCreate) :
    PutOutcome :=
  if q.length < maxsize then .completes (q ++ [m]) else .suspends

/-- Result of a call to `MetricsService.log_metric`: either the coroutine
returns a boolean (with the queue contents after the call), or it is still
blocked inside `await self.metrics_queue.put(metric)`. -/
inductive LogMetricOutcome
  | returns (accepted : Bool) (q : List MetricsCreate)
  | blocks
  deriving DecidableEq

/-- `MetricsService.log_metric` (metrics_service.py lines 51-58): it awaits
`put` and returns True; the `except asyncio.QueueFull` branch (which would
log and return False) can only be reached if `put` raised `QueueFull`, which
`asyncio.Queue.put` never does. -/
def log_metric (maxsize : Nat) (q : List MetricsCreate) (m : MetricsCreate) :
    LogMetricOutcome :=
  match asyncioQueuePut maxsize q m with
  | .completes q2 => .returns true q2
  | .suspends => .blocks

/-! ## Redis service: backend/app/services/redis_service.py -/

/-- State of `RedisService` together with the Redis server it talks to. -/
structure RedisState where
  /-- `self.redis is not None`: `connect` succeeded at startup. -/
  connected : Bool
  /-- every awaited Redis command raises (server unreachable after connect). -/
  opsFail : Bool
  /-- counter values; a key never incremented reads as 0. -/
  store : String → Nat

/-- A connected Redis with all counters at zero and healthy operations. -/
def freshRedis : RedisState :=
  { connected := true, opsFail := false, store := fun _ => 0 }

/-- A RedisService whose `connect` failed: `self.redis is None`. -/
def noRedis : RedisState :=
  { connected := false, opsFail := false, store := fun _ => 0 }

/-- A RedisService holding a client whose every command raises. -/
def downRedis : RedisState :=
  { connected := true, opsFail := true, store := fun _ => 0 }

/-- `RedisService.get_counter` (lines 56-66): 0 when there is no client,
`int(value) if value else 0` on success, and 0 when the GET raises
(the `except` logs and returns 0). -/
def get_counter (r : RedisState) (key : String) : Nat :=
  if ¬ r.connected then 0
  else if r.opsFail then 0
  else r.store key

/-- `RedisService.increment_counter` (lines 42-54): INCR then EXPIRE,
returning the incremented value; 0 when there is no client, and 0 when the
commands raise (the `except` logs and returns 0, leaving the store as it
was).  The TTL is store-managed expiry and is not modelled (see header). -/
def increment_counter (r : RedisState) (key : String) (_ttl : Option Nat) :
    Nat × RedisState :=
  if ¬ r.connected then (0, r)
  else if r.opsFail then (0, r)
  else
    let v := r.store key + 1
    (v, { r with store := fun k => if k = key then v else r.store k })

/-- Python's `x or default` for the optional limit arguments: `None` and `0`
are falsy, so both fall back to the configured default. -/
def orDefault (x : Option Nat) (d : Nat) : Nat :=
  match x with
  | none => d
  | some n => if n = 0 then d else n

/-- The minute-window key, built as in line 112 of redis_service.py; the
`strftime` minute bucket is passed in as `tb`. -/
def minute_key (user_id endpoint tb : String) : String :=
  "rate_limit:" ++ user_id ++ ":" ++ endpoint ++ ":minute:" ++ tb

/-- The hour-window key (line 113), with the hour bucket `tb`. -/
def hour_key (user_id endpoint tb : String) : String :=
  "rate_limit:" ++ user_id ++ ":" ++ endpoint ++ ":hour:" ++ tb

/-- `RedisService.check_rate_limit` (lines 92-133).  The current-time
buckets `tmin`/`thour` are the strftime strings for the minute and hour
windows.  Returns `(allowed, requests_this_minute, requests_this_hour)`
together with the Redis state after the call.  The final
`except ... return True, 0, 0` branch of the source is unreachable here
because `get_counter` and `increment_counter` absorb their own store
errors. -/
def check_rate_limit (st : Settings) (r : RedisState) (user_id endpoint : String)
    (tmin thour : String) (limit_per_minute limit_per_hour : Option Nat) :
    (Bool × Nat × Nat) × RedisState :=
  if ¬ r.connected then ((true, 0, 0), r)
  else
    let lpm := orDefault limit_per_minute st.RATE_LIMIT_PER_MINUTE
    let lph := orDefault limit_per_hour st.RATE_LIMIT_PER_HOUR
    let mk := minute_key user_id endpoint tmin
    let hk := hour_key user_id endpoint thour
    let minute_count := get_counter r mk
    let hour_count := get_counter r hk
    if minute_count ≥ lpm ∨ hour_count ≥ lph then
      ((false, minute_count, hour_count), r)
    else
      let p1 := increment_counter r mk (some 60)
      let p2 := increment_counter p1.2 hk (some 3600)
      ((true, minute_count + 1, hour_count + 1), p2.2)

/-- `k` sequential calls to `check_rate_limit` for one subject/endpoint
inside one minute/hour window, threading the Redis state; returns the list
of per-call results in order together with the final state. -/
def seq_calls (st : Settings) (user_id endpoint tmin thour : String)
    (lm lh : Option Nat) : Nat → RedisState → List (Bool × Nat × Nat) × RedisState
  | 0, r => ([], r)
  | k + 1, r =>
      let p := check_rate_limit st r user_id endpoint tmin thour lm lh
      let rest := seq_calls st user_id endpoint tmin thour lm lh k p.2
      (p.1 :: rest.1, rest.2)

/-- The result list the spec predicts for sequential calls with minute
ceiling `N` from a fresh window: call `i` (0-based). -/
def expected_call (N : Nat) (i : Nat) : Bool × Nat × Nat :=
  if i < N then (true, i + 1, i + 1) else (false, N, N)

/-! ### The two round trips of check_rate_limit, for interleaving

`check_rate_limit` reads both counters (lines 117-118) and only afterwards
compares and increments (lines 121-128).  The two halves below are those
two phases verbatim; a concurrent execution interleaves them. -/

/-- Phase 1 of `check_rate_limit` (lines 117-118): read both counters. -/
def rate_limit_read (r : RedisState) (mk hk : String) : Nat × Nat :=
  (get_counter r mk, get_counter r hk)

/-- Phase 2 of `check_rate_limit` (lines 121-128): given the counts read in
phase 1, reject if either ceiling is reached, otherwise increment both
counters and admit. -/
def rate_limit_update (r : RedisState) (mk hk : String) (lpm lph : Nat)
    (minute_count hour_count : Nat) : (Bool × Nat × Nat) × RedisState :=
  if minute_count ≥ lpm ∨ hour_count ≥ lph then
    ((false, minute_count, hour_count), r)
  else
    let p1 := increment_counter r mk (some 60)
    let p2 := increment_counter p1.2 hk (some 3600)
    ((true, minute_count + 1, hour_count + 1), p2.2)

/-- Two concurrent `check_rate_limit` calls for the same subject and window,
interleaved so that both phase-1 reads happen before either phase-2 update —
a schedule the two separate store round trips permit.  Returns both call
results and the final store state. -/
def race_two (r : RedisState) (mk hk : String) (lpm lph : Nat) :
    (Bool × Nat × Nat) × (Bool × Nat × Nat) × RedisState :=
  let ra := rate_limit_read r mk hk
  let rb := rate_limit_read r mk hk
  let a := rate_limit_update r mk hk lpm lph ra.1 ra.2
  let b := rate_limit_update a.2 mk hk lpm lph rb.1 rb.2
  (a.1, b.1, b.2)

/-- How many of the two raced calls were admitted. -/
def admitted_count (x : (Bool × Nat × Nat) × (Bool × Nat × Nat) × RedisState) : Nat :=
  (if x.1.1 then 1 else 0) + (if x.2.1.1 then 1 else 0)

/-! ### Realtime stats: RedisService.get_realtime_stats -/

/-- The one runtime error this expression could raise. -/
inductive PyErr
  | zeroDivision
  deriving DecidableEq

/-- Python's true division, which raises ZeroDivisionError on a zero
denominator. -/
def pyDiv (a b : ℚ) : Except PyErr ℚ :=
  if b = 0 then .error .zeroDivision else .ok (a / b)

/-- The dict returned by `get_realtime_stats`: either the empty dict `{}`
or the four-entry stats dict. -/
inductive RealtimeStats
  | emptyDict
  | stats (total_requests_today success_requests_today error_requests_today : Nat)
      (success_rate : ℚ)

/-- The conditional expression of line 172:
`(success_requests / total_requests * 100) if total_requests > 0 else 0`. -/
def success_rate_expr (success_requests total_requests : Nat) : Except PyErr ℚ :=
  if total_requests > 0 then
    (pyDiv success_requests total_requests).map (fun q => q * 100)
  else .ok 0

/-- `RedisService.get_realtime_stats` (lines 156-177); `today` is the
strftime day bucket.  The outer `except` would return the empty dict if
anything inside raised. -/
def get_realtime_stats (r : RedisState) (today : String) : RealtimeStats :=
  if ¬ r.connected then .emptyDict
  else
    let total_requests := get_counter r ("requests:total:" ++ today)
    let success_requests := get_counter r ("requests:status:success:" ++ today)
    let error_requests := get_counter r ("requests:status:error:" ++ today)
    match success_rate_expr success_requests total_requests with
    | .ok rate => .stats total_requests success_requests error_requests rate
    | .error _ => .emptyDict

/-! ## Batch flusher: MetricsService._process_metrics / stop / _flush_queue

One `StepInput` is one iteration of the `while self.running` loop, stamped
with the wall-clock second at which it runs; `arrivals` are the events whose
`put` completed since the previous iteration (they join the queue before the
iteration's `get`), and `sinkOk` says whether the database bulk insert of
line 155-178 would succeed for a flush performed during this iteration. -/

/-- One worker-loop iteration as input: its time, the events that reached
the queue since the last iteration, and the health of the database sink. -/
structure StepInput where
  now : Int
  arrivals : List MetricsCreate
  sinkOk : Bool
  deriving DecidableEq

/-- The shared state of the pipeline: the asyncio queue, the worker's local
batch and last-flush timestamp, the list of flush attempts so far (each
entry is the batch handed to `_flush_batch`), and the rows actually
persisted by successful bulk inserts. -/
structure PipelineState where
  queue : List MetricsCreate
  batch : List MetricsCreate
  last_flush : Int
  attempts : List (List MetricsCreate)
  db : List MetricsCreate
  deriving DecidableEq

/-- `MetricsService._flush_batch` (lines 138-184): returns at once on an
empty batch; otherwise one bulk-insert attempt is made.  On success the rows
are persisted; on any failure the exception is caught, the failure is
logged, and the batch is simply dropped (no retry, no dead-letter queue). -/
def flush_batch (sinkOk : Bool) (batch : List MetricsCreate) (s : PipelineState) :
    PipelineState :=
  if batch = [] then s
  else if sinkOk then
    { s with attempts := s.attempts ++ [batch], db := s.db ++ batch }
  else
    { s with attempts := s.attempts ++ [batch] }

/-- One iteration of the `while self.running` loop of
`MetricsService._process_metrics` (lines 102-130): first the time trigger
(elapsed since last flush ≥ METRICS_FLUSH_INTERVAL and batch non-empty →
flush, reset batch and timer), then one `wait_for(queue.get, timeout=1.0)`
— a timeout just continues, a dequeued metric is appended to the batch and
the count trigger (len ≥ METRICS_BATCH_SIZE) flushes immediately and resets
the timer. -/
def process_step (cfg : Settings) (inp : StepInput) (s : PipelineState) :
    PipelineState :=
  let s0 := { s with queue := s.queue ++ inp.arrivals }
  let s1 :=
    if inp.now - s0.last_flush ≥ (cfg.METRICS_FLUSH_INTERVAL : Int) ∧ s0.batch ≠ [] then
      { flush_batch inp.sinkOk s0.batch s0 with batch := [], last_flush := inp.now }
    else s0
  match s1.queue with
  | [] => s1
  | m :: rest =>
      let b := s1.batch ++ [m]
      if b.length ≥ cfg.METRICS_BATCH_SIZE then
        { flush_batch inp.sinkOk b { s1 with queue := rest } with
            batch := [], last_flush := inp.now }
      else { s1 with queue := rest, batch := b }

/-- The worker loop run over a sequence of iterations. -/
def run_steps (cfg : Settings) : List StepInput → PipelineState → PipelineState
  | [], s => s
  | inp :: rest, s => run_steps cfg rest (process_step cfg inp s)

/-- The clean-shutdown tail: after `self.running = False` the worker loop
exits and flushes its remaining local batch (lines 132-134), then
`MetricsService.stop` runs `_flush_queue` (lines 186-197): non-blocking pop
until the queue is empty, then one more flush of what was drained.
`okWorker` / `okQueue` are the sink outcomes of those two flush attempts. -/
def stop_drain (okWorker okQueue : Bool) (s : PipelineState) : PipelineState :=
  let s1 := if s.batch = [] then s else { flush_batch okWorker s.batch s with batch := [] }
  if s1.queue = [] then s1
  else { flush_batch okQueue s1.queue s1 with queue := [] }

/-- The pipeline state at worker start (line 99-100): empty batch, empty
queue, `last_flush = datetime.utcnow()`. -/
def initState (t0 : Int) : PipelineState :=
  { queue := [], batch := [], last_flush := t0, attempts := [], db := [] }

/-- Worker iterations during which no new event arrives (the 1-second
`wait_for` times out each time). -/
def quiet_steps (ts : List Int) : List StepInput :=
  ts.map (fun t => { now := t, arrivals := [], sinkOk := true })

/-- Agreement of two pipeline states on everything except the persisted
rows: same queue, same local batch, same timer, same flush attempts. -/
def eq_except_db (a b : PipelineState) : Prop :=
  a.queue = b.queue ∧ a.batch = b.batch ∧ a.last_flush = b.last_flush ∧
    a.attempts = b.attempts

/-! ## Theorems -/

/-- The two window keys for one subject/endpoint are always distinct
strings, whatever the subject, endpoint and time buckets are. -/
theorem minute_key_ne_hour_key (u e tm th : String) :
    minute_key u e tm ≠ hour_key u e th := by
  intro h
  have h2 : (minute_key u e tm).data = (hour_key u e th).data := by rw [h]
  simp only [minute_key, hour_key, String.data_append, List.append_assoc] at h2
  have h3 := List.append_cancel_left h2
  have h4 := List.append_cancel_left h3
  have h5 := List.append_cancel_left h4
  have h6 := List.append_cancel_left h5
  simp at h6

/-- C1: with the queue already holding its capacity (default 1000) of
events, `log_metric` does not return false immediately: the awaited
`queue.put` suspends the caller (asyncio.Queue.put never raises QueueFull,
so the `except asyncio.QueueFull: return False` handler is dead code).
This evaluates the code at the failing input of the claim. -/
theorem C1_log_metric_blocks_on_full_queue :
    log_metric defaultSettings.METRICS_QUEUE_SIZE (List.replicate 1000 m0) m0
      = .blocks ∧
    ∀ q2 : List MetricsCreate,
      log_metric defaultSettings.METRICS_QUEUE_SIZE (List.replicate 1000 m0) m0
        ≠ .returns false q2 := by
  have hput : asyncioQueuePut defaultSettings.METRICS_QUEUE_SIZE
      (List.replicate 1000 m0) m0 = .suspends := by
    unfold asyncioQueuePut defaultSettings
    rw [List.length_replicate]
    rw [if_neg (by decide)]
  constructor
  · unfold log_metric
    rw [hput]
  · intro q2
    unfold log_metric
    rw [hput]
    exact fun h => by cases h

/-- C6 counterexample: with a Redis client present but every store
operation raising, `check_rate_limit` returns admitted = true with
minute_count = hour_count = 1, not the (true, 0, 0) the claim states: the
errors are absorbed inside `get_counter`/`increment_counter`, which report
0, so the call proceeds as if the counters were fresh and reports 0 + 1. -/
theorem C6_counterexample_ops_failure_reports_one :
    (check_rate_limit defaultSettings downRedis "u1" "chat" "mb" "hb" none none).1
      = (true, 1, 1) ∧
    ((true, 1, 1) : Bool × Nat × Nat) ≠ (true, 0, 0) := by
  exact ⟨rfl, by decide⟩

/-- C6 (amended): when no connection was established `check_rate_limit`
fails open with exactly (true, 0, 0) and an unchanged state; when a client
exists but store operations raise, the helpers absorb the errors and report
0, so the call admits with counts (1, 1) and leaves the store unchanged.
In both cases it is total — no exception reaches the caller. -/
theorem C6_fail_open (st : Settings) (r : RedisState) (u e tmin thour : String)
    (lm lh : Option Nat)
    (hlpm : 0 < orDefault lm st.RATE_LIMIT_PER_MINUTE)
    (hlph : 0 < orDefault lh st.RATE_LIMIT_PER_HOUR) :
    (r.connected = false →
      check_rate_limit st r u e tmin thour lm lh = ((true, 0, 0), r)) ∧
    (r.connected = true → r.opsFail = true →
      (check_rate_limit st r u e tmin thour lm lh).1 = (true, 1, 1) ∧
      (check_rate_limit st r u e tmin thour lm lh).2 = r) := by
  constructor
  · intro hc
    simp [check_rate_limit, hc]
  · intro hc hf
    have hmc : get_counter r (minute_key u e tmin) = 0 := by
      simp [get_counter, hc, hf]
    have hhc : get_counter r (hour_key u e thour) = 0 := by
      simp [get_counter, hc, hf]
    constructor
    · simp [check_rate_limit, hc, hmc, hhc, Nat.not_le.2 hlpm, Nat.not_le.2 hlph,
        increment_counter, hf]
    · simp [check_rate_limit, hc, hmc, hhc, Nat.not_le.2 hlpm, Nat.not_le.2 hlph,
        increment_counter, hf]

/-- Witness for C6_fail_open: both failure modes evaluated at concrete
inputs with the default settings. -/
theorem C6_fail_open_witness :
    check_rate_limit defaultSettings noRedis "u1" "chat" "mb" "hb" none none
      = ((true, 0, 0), noRedis) ∧
    (check_rate_limit defaultSettings downRedis "u1" "chat" "mb" "hb" none none).1
      = (true, 1, 1) := by
  constructor
  · exact (C6_fail_open defaultSettings noRedis "u1" "chat" "mb" "hb" none none
      (by decide) (by decide)).1 rfl
  · exact (((C6_fail_open defaultSettings downRedis "u1" "chat" "mb" "hb" none none
      (by decide) (by decide)).2 rfl rfl)).1

/-- C10 counterexample: with a client present but store operations failing,
`get_realtime_stats` does not return the empty dict: the counter reads
absorb their errors and report 0, so it returns the stats dict with all
counts zero and success_rate 0. -/
theorem C10_counterexample_ops_failure_returns_stats :
    get_realtime_stats downRedis "20250401" = .stats 0 0 0 0 ∧
    RealtimeStats.stats 0 0 0 0 ≠ .emptyDict := by
  refine ⟨rfl, fun h => ?_⟩
  cases h

/-- C10 (amended): `get_realtime_stats` never divides by zero and never
raises: with no client it returns the empty dict; with a client it always
returns the populated stats dict, whose success_rate is the guarded ratio —
0 whenever total_requests is 0 (the ratio is not evaluated then), including
when store operations fail and every counter reads as 0.  The success-rate
expression itself never produces a ZeroDivisionError. -/
theorem C10_realtime_stats_safe (r : RedisState) (today : String) :
    (r.connected = false → get_realtime_stats r today = .emptyDict) ∧
    (r.connected = true →
      get_realtime_stats r today =
        .stats (get_counter r ("requests:total:" ++ today))
          (get_counter r ("requests:status:success:" ++ today))
          (get_counter r ("requests:status:error:" ++ today))
          (if 0 < get_counter r ("requests:total:" ++ today) then
            ((get_counter r ("requests:status:success:" ++ today) : ℚ) /
              (get_counter r ("requests:total:" ++ today) : ℚ)) * 100
          else 0)) ∧
    (∀ s t : Nat, success_rate_expr s t ≠ .error .zeroDivision) := by
  refine ⟨fun hc => by simp [get_realtime_stats, hc], fun hc => ?_, fun s t => ?_⟩
  · rcases Nat.eq_zero_or_pos (get_counter r ("requests:total:" ++ today)) with h0 | hpos
    · simp [get_realtime_stats, hc, success_rate_expr, h0]
    · have hne : ((get_counter r ("requests:total:" ++ today) : ℚ)) ≠ 0 := by
        exact_mod_cast Nat.pos_iff_ne_zero.1 hpos
      simp [get_realtime_stats, hc, success_rate_expr, hpos, pyDiv, hne, Except.map]
  · unfold success_rate_expr
    split
    · rename_i hpos
      have hne : ((t : ℚ)) ≠ 0 := by
        exact_mod_cast Nat.pos_iff_ne_zero.1 hpos
      simp [pyDiv, hne, Except.map]
    · simp

/-- Witness for C10_realtime_stats_safe: both connection states evaluated
at concrete inputs. -/
theorem C10_realtime_stats_safe_witness :
    get_realtime_stats noRedis "20250401" = .emptyDict ∧
    get_realtime_stats freshRedis "20250401" = .stats 0 0 0 0 := by
  constructor
  · exact (C10_realtime_stats_safe noRedis "20250401").1 rfl
  · have h := (C10_realtime_stats_safe freshRedis "20250401").2.1 rfl
    simpa [get_counter, freshRedis] using h

/-- One admitted call: with healthy Redis and both window counters at `j`
below their ceilings, `check_rate_limit` admits, reports `j + 1` for both
windows, and increments both counters to `j + 1`. -/
theorem check_rate_limit_admits (st : Settings) (r : RedisState)
    (u e tmin thour : String) (lm lh : Option Nat) (j : Nat)
    (hc : r.connected = true) (hf : r.opsFail = false)
    (hm : r.store (minute_key u e tmin) = j)
    (hh : r.store (hour_key u e thour) = j)
    (hjm : j < orDefault lm st.RATE_LIMIT_PER_MINUTE)
    (hjh : j < orDefault lh st.RATE_LIMIT_PER_HOUR) :
    (check_rate_limit st r u e tmin thour lm lh).1 = (true, j + 1, j + 1) ∧
    (check_rate_limit st r u e tmin thour lm lh).2.connected = true ∧
    (check_rate_limit st r u e tmin thour lm lh).2.opsFail = false ∧
    (check_rate_limit st r u e tmin thour lm lh).2.store (minute_key u e tmin) = j + 1 ∧
    (check_rate_limit st r u e tmin thour lm lh).2.store (hour_key u e thour) = j + 1 := by
  have hmk := minute_key_ne_hour_key u e tmin thour
  simp only [check_rate_limit, hc, hf, get_counter, increment_counter, hm, hh]
  simp only [Bool.true_eq_false, not_true_eq_false, if_false, ite_false, if_neg,
    Bool.false_eq_true, reduceIte]
  rw [if_neg (by omega)]
  refine ⟨rfl, rfl, rfl, ?_, ?_⟩
  · simp [hm, hh, Ne.symm hmk]
  · simp [hm, hh, Ne.symm hmk]

/-- One rejected call: with healthy Redis and the minute counter already at
the minute ceiling, `check_rate_limit` rejects, reports the read counts,
and leaves the state untouched (no increment). -/
theorem check_rate_limit_rejects (st : Settings) (r : RedisState)
    (u e tmin thour : String) (lm lh : Option Nat)
    (hc : r.connected = true)
    (hcap : get_counter r (minute_key u e tmin) ≥ orDefault lm st.RATE_LIMIT_PER_MINUTE) :
    check_rate_limit st r u e tmin thour lm lh =
      ((false, get_counter r (minute_key u e tmin),
        get_counter r (hour_key u e thour)), r) := by
  simp only [check_rate_limit, hc]
  simp only [Bool.true_eq_false, not_true_eq_false, if_false, ite_false, reduceIte]
  rw [if_pos (Or.inl hcap)]

/-- Sequential calls inside one window, generalized over the common value
`j` both counters hold at the start: with minute ceiling `N` (not above the
hour ceiling `H`) and healthy Redis, the calls produce the predicted result
list and leave both counters at `min (j + k) N`. -/
theorem seq_calls_spec (st : Settings) (u e tmin thour : String)
    (lm lh : Option Nat) (N H : Nat)
    (hNdef : orDefault lm st.RATE_LIMIT_PER_MINUTE = N)
    (hHdef : orDefault lh st.RATE_LIMIT_PER_HOUR = H)
    (hNH : N ≤ H) :
    ∀ (k j : Nat) (r : RedisState),
    r.connected = true → r.opsFail = false →
    r.store (minute_key u e tmin) = j →
    r.store (hour_key u e thour) = j →
    j ≤ N →
    (seq_calls st u e tmin thour lm lh k r).1
        = (List.range k).map (fun i => expected_call N (j + i)) ∧
    (seq_calls st u e tmin thour lm lh k r).2.connected = true ∧
    (seq_calls st u e tmin thour lm lh k r).2.opsFail = false ∧
    (seq_calls st u e tmin thour lm lh k r).2.store (minute_key u e tmin)
        = min (j + k) N ∧
    (seq_calls st u e tmin thour lm lh k r).2.store (hour_key u e thour)
        = min (j + k) N := by
  intro k
  induction k with
  | zero =>
      intro j r hc hf hm hh hjN
      refine ⟨by simp [seq_calls], hc, hf, ?_, ?_⟩
      · rw [seq_calls, hm, Nat.add_zero, Nat.min_eq_left hjN]
      · rw [seq_calls, hh, Nat.add_zero, Nat.min_eq_left hjN]
  | succ k ih =>
      intro j r hc hf hm hh hjN
      by_cases hj : j < N
      · have hstep := check_rate_limit_admits st r u e tmin thour lm lh j hc hf hm hh
          (by omega) (by omega)
        have hrec := ih (j + 1) (check_rate_limit st r u e tmin thour lm lh).2
          hstep.2.1 hstep.2.2.1 hstep.2.2.2.1 hstep.2.2.2.2 (by omega)
        simp only [seq_calls]
        refine ⟨?_, hrec.2.1, hrec.2.2.1, ?_, ?_⟩
        · rw [hstep.1, hrec.1, List.range_succ_eq_map, List.map_cons, List.map_map]
          congr 1
          · simp [expected_call, hj]
          · exact List.map_congr_left fun i _ => congrArg (expected_call N) (by omega)
        · rw [hrec.2.2.2.1]
          omega
        · rw [hrec.2.2.2.2]
          omega
      · have hjeq : j = N := by omega
        have hget_m : get_counter r (minute_key u e tmin) = j := by
          simp [get_counter, hc, hf, hm]
        have hget_h : get_counter r (hour_key u e thour) = j := by
          simp [get_counter, hc, hf, hh]
        have hstep := check_rate_limit_rejects st r u e tmin thour lm lh hc
          (by rw [hget_m, hNdef]; omega)
        have hrec := ih j r hc hf hm hh hjN
        simp only [seq_calls, hstep]
        refine ⟨?_, hrec.2.1, hrec.2.2.1, ?_, ?_⟩
        · rw [hrec.1, List.range_succ_eq_map, List.map_cons, List.map_map]
          congr 1
          · simp [hget_m, hget_h, expected_call, hjeq]
          · refine List.map_congr_left fun i _ => ?_
            have h1 : ¬ j + i < N := by omega
            have h2 : ¬ j + (i + 1) < N := by omega
            simp [Function.comp, Nat.succ_eq_add_one, expected_call, h1, h2]
        · rw [hrec.2.2.2.1]
          omega
        · rw [hrec.2.2.2.2]
          omega

/-- C2: with the Counter Store available and a fresh window, sequential
calls with minute ceiling N (no larger than the hour ceiling H) admit the
first N calls with minute_count = 1, 2, ..., N and reject every call from
the (N+1)th on with minute_count stuck at N, incrementing neither counter
on a rejection: both window counters end at min k N. -/
theorem C2_sequential_rate_limit (u e tmin thour : String) (N H k : Nat)
    (hN : 0 < N) (hH : 0 < H) (hNH : N ≤ H) :
    (seq_calls defaultSettings u e tmin thour (some N) (some H) k freshRedis).1
        = (List.range k).map (expected_call N) ∧
    (seq_calls defaultSettings u e tmin thour (some N) (some H) k freshRedis).2.store
        (minute_key u e tmin) = min k N ∧
    (seq_calls defaultSettings u e tmin thour (some N) (some H) k freshRedis).2.store
        (hour_key u e thour) = min k N := by
  have hNd : orDefault (some N) defaultSettings.RATE_LIMIT_PER_MINUTE = N := by
    simp [orDefault, Nat.pos_iff_ne_zero.1 hN]
  have hHd : orDefault (some H) defaultSettings.RATE_LIMIT_PER_HOUR = H := by
    simp [orDefault, Nat.pos_iff_ne_zero.1 hH]
  have h := seq_calls_spec defaultSettings u e tmin thour (some N) (some H) N H hNd hHd
    hNH k 0 freshRedis rfl rfl rfl rfl (Nat.zero_le N)
  refine ⟨?_, ?_, ?_⟩
  · rw [h.1]
    simp
  · rw [h.2.2.2.1]
    simp
  · rw [h.2.2.2.2]
    simp

/-- Witness for C2: ceiling 3/minute (hour ceiling 1000), 5 sequential
calls for the same subject/endpoint inside one window give
admitted = [true, true, true, false, false] with
minute_count = [1, 2, 3, 3, 3], and the minute counter is left at 3. -/
theorem C2_sequential_rate_limit_witness :
    (seq_calls defaultSettings "u1" "chat" "202504010101" "2025040101"
        (some 3) (some 1000) 5 freshRedis).1
      = [(true, 1, 1), (true, 2, 2), (true, 3, 3), (false, 3, 3), (false, 3, 3)] ∧
    (seq_calls defaultSettings "u1" "chat" "202504010101" "2025040101"
        (some 3) (some 1000) 5 freshRedis).2.store
        (minute_key "u1" "chat" "202504010101") = 3 := by
  have h := C2_sequential_rate_limit "u1" "chat" "202504010101" "2025040101" 3 1000 5
    (by decide) (by decide) (by decide)
  refine ⟨?_, ?_⟩
  · rw [h.1]
    decide
  · rw [h.2.1]
    decide

/-- Sanity: `check_rate_limit` on a healthy connection is exactly its read
phase followed by its update phase — the two separate store round trips. -/
theorem check_rate_limit_eq_phases (st : Settings) (r : RedisState)
    (u e tmin thour : String) (lm lh : Option Nat) (hc : r.connected = true) :
    check_rate_limit st r u e tmin thour lm lh =
      rate_limit_update r (minute_key u e tmin) (hour_key u e thour)
        (orDefault lm st.RATE_LIMIT_PER_MINUTE) (orDefault lh st.RATE_LIMIT_PER_HOUR)
        (rate_limit_read r (minute_key u e tmin) (hour_key u e thour)).1
        (rate_limit_read r (minute_key u e tmin) (hour_key u e thour)).2 := by
  simp [check_rate_limit, rate_limit_read, rate_limit_update, hc]

/-- C8 counterexample: the check and the increment are two separate store
round trips, so two concurrent calls may both read before either
increments; with minute ceiling 1 on a fresh window, that interleaving
admits both calls — the number of admitted requests (2) exceeds the
configured ceiling (1). -/
theorem C8_counterexample_race_exceeds_ceiling :
    1 < admitted_count (race_two freshRedis
        (minute_key "u1" "chat" "202504010101") (hour_key "u1" "chat" "2025040101")
        1 1000) := by
  decide

/-- The admit branch of the update phase: below both ceilings it admits,
reports the read counts plus one, and increments both window counters. -/
theorem rate_limit_update_admits (r : RedisState) (mk hk : String)
    (lpm lph mc hcnt : Nat) (hc : r.connected = true) (hf : r.opsFail = false)
    (hmk : mk ≠ hk) (h1 : mc < lpm) (h2 : hcnt < lph) :
    (rate_limit_update r mk hk lpm lph mc hcnt).1 = (true, mc + 1, hcnt + 1) ∧
    (rate_limit_update r mk hk lpm lph mc hcnt).2.connected = true ∧
    (rate_limit_update r mk hk lpm lph mc hcnt).2.opsFail = false ∧
    (rate_limit_update r mk hk lpm lph mc hcnt).2.store mk = r.store mk + 1 ∧
    (rate_limit_update r mk hk lpm lph mc hcnt).2.store hk = r.store hk + 1 := by
  simp only [rate_limit_update, increment_counter, hc, hf]
  simp only [Bool.true_eq_false, not_true_eq_false, if_false, ite_false,
    Bool.false_eq_true, reduceIte]
  rw [if_neg (by omega)]
  refine ⟨rfl, rfl, rfl, ?_, ?_⟩
  · simp [hmk, Ne.symm hmk]
  · simp [hmk, Ne.symm hmk]

/-- C8 (amended): `check_rate_limit` is not atomic — it reads both counters
and only then increments.  Under the interleaving in which two concurrent
calls for the same subject both read before either updates, both are
admitted whenever the pre-existing count `c` is below both ceilings, and
the window counter ends at `c + 2`; hence with minute ceiling c + 1 the
admitted total in the window exceeds the ceiling by exactly one
(the number of concurrent racers minus one). -/
theorem C8_race_two_overadmits (r : RedisState) (u e tmin thour : String)
    (lpm lph c : Nat)
    (hc : r.connected = true) (hf : r.opsFail = false)
    (hm : r.store (minute_key u e tmin) = c)
    (hh : r.store (hour_key u e thour) = c)
    (hcm : c < lpm) (hch : c < lph) :
    admitted_count (race_two r (minute_key u e tmin) (hour_key u e thour) lpm lph) = 2 ∧
    (race_two r (minute_key u e tmin) (hour_key u e thour) lpm lph).2.2.store
        (minute_key u e tmin) = c + 2 := by
  have hmk := minute_key_ne_hour_key u e tmin thour
  have hra : rate_limit_read r (minute_key u e tmin) (hour_key u e thour) = (c, c) := by
    simp [rate_limit_read, get_counter, hc, hf, hm, hh]
  have ha := rate_limit_update_admits r (minute_key u e tmin) (hour_key u e thour)
    lpm lph c c hc hf hmk hcm hch
  have hb := rate_limit_update_admits
    (rate_limit_update r (minute_key u e tmin) (hour_key u e thour) lpm lph c c).2
    (minute_key u e tmin) (hour_key u e thour) lpm lph c c
    ha.2.1 ha.2.2.1 hmk hcm hch
  simp only [race_two, hra]
  constructor
  · simp only [admitted_count]
    rw [ha.1, hb.1]
    simp
  · rw [hb.2.2.2.1, ha.2.2.2.1, hm]

/-- Witness for C8_race_two_overadmits: fresh window, minute ceiling 1 —
both racers are admitted and the minute counter is left at 2. -/
theorem C8_race_two_overadmits_witness :
    admitted_count (race_two freshRedis (minute_key "u1" "chat" "mb")
        (hour_key "u1" "chat" "hb") 1 1000) = 2 ∧
    (race_two freshRedis (minute_key "u1" "chat" "mb")
        (hour_key "u1" "chat" "hb") 1 1000).2.2.store
        (minute_key "u1" "chat" "mb") = 0 + 2 :=
  C8_race_two_overadmits freshRedis "u1" "chat" "mb" "hb" 1 1000 0 rfl rfl rfl rfl
    (by decide) (by decide)

/-- C3: in an iteration whose time trigger is not due, dequeuing an event
that brings the local batch to METRICS_BATCH_SIZE flushes exactly that
batch at once — within the same iteration, before any further dequeue —
empties the batch, and resets the last-flush timestamp to now, even though
the flush-interval deadline has not elapsed. -/
theorem C3_count_trigger_flushes_immediately (cfg : Settings) (inp : StepInput)
    (s : PipelineState) (m : MetricsCreate) (rest : List MetricsCreate)
    (harr : inp.arrivals = [])
    (hq : s.queue = m :: rest)
    (htime : inp.now - s.last_flush < (cfg.METRICS_FLUSH_INTERVAL : Int))
    (hlen : s.batch.length + 1 = cfg.METRICS_BATCH_SIZE) :
    process_step cfg inp s =
      { queue := rest, batch := [], last_flush := inp.now,
        attempts := s.attempts ++ [s.batch ++ [m]],
        db := if inp.sinkOk then s.db ++ (s.batch ++ [m]) else s.db } := by
  have hnotdue : ¬ (inp.now - s.last_flush ≥ (cfg.METRICS_FLUSH_INTERVAL : Int)
      ∧ s.batch ≠ []) := by
    rintro ⟨h1, -⟩
    omega
  have hfull : (s.batch ++ [m]).length ≥ cfg.METRICS_BATCH_SIZE := by
    simp [List.length_append]
    omega
  have hne : s.batch ++ [m] ≠ [] := by simp
  simp only [process_step, harr, List.append_nil, hq, if_neg hnotdue]
  rw [if_pos hfull]
  cases hok : inp.sinkOk <;>
    simp [flush_batch, hne, hok]

/-- Witness for C3: default settings (batch size 10, interval 5), a batch
of 9 events and one queued event, 2 seconds after the last flush: the
iteration flushes all 10 at once and resets the timer. -/
theorem C3_count_trigger_flushes_immediately_witness :
    process_step defaultSettings { now := 2, arrivals := [], sinkOk := true }
        { queue := [m0], batch := List.replicate 9 m0, last_flush := 0,
          attempts := [], db := [] } =
      { queue := [], batch := [], last_flush := 2,
        attempts := [[m0, m0, m0, m0, m0, m0, m0, m0, m0, m0]],
        db := [m0, m0, m0, m0, m0, m0, m0, m0, m0, m0] } := by
  have h := C3_count_trigger_flushes_immediately defaultSettings
    { now := 2, arrivals := [], sinkOk := true }
    { queue := [m0], batch := List.replicate 9 m0, last_flush := 0,
      attempts := [], db := [] }
    m0 [] rfl rfl (by decide) (by decide)
  rw [h]
  rfl

/-- The persisted rows never influence the worker loop: changing only `db`
changes nothing but `db` after one iteration. -/
theorem process_step_db_invariant (cfg : Settings) (inp : StepInput)
    (s : PipelineState) (d : List MetricsCreate) :
    eq_except_db (process_step cfg inp { s with db := d }) (process_step cfg inp s) := by
  obtain ⟨q, bt, lf, att, db⟩ := s
  simp only [process_step, flush_batch, eq_except_db]
  split_ifs <;>
    rcases hqa : q ++ inp.arrivals with _ | ⟨m, rest⟩ <;>
      simp_all <;> split_ifs <;> simp_all

/-- An iteration whose sink is down persists nothing. -/
theorem process_step_sink_down_db (cfg : Settings) (inp : StepInput)
    (s : PipelineState) (hok : inp.sinkOk = false) :
    (process_step cfg inp s).db = s.db := by
  obtain ⟨q, bt, lf, att, db⟩ := s
  simp only [process_step, flush_batch, hok]
  split_ifs <;>
    rcases hqa : q ++ inp.arrivals with _ | ⟨m, rest⟩ <;>
      simp_all <;> split_ifs <;> simp_all

/-- The sink outcome influences only `db`: the queue, batch, timer and the
flush-attempt log after an iteration are the same whether the bulk insert
succeeds or fails. -/
theorem process_step_sink_control (cfg : Settings) (inp : StepInput)
    (s : PipelineState) (o1 o2 : Bool) :
    eq_except_db (process_step cfg { inp with sinkOk := o1 } s)
      (process_step cfg { inp with sinkOk := o2 } s) := by
  obtain ⟨q, bt, lf, att, db⟩ := s
  simp only [process_step, flush_batch, eq_except_db]
  split_ifs <;>
    rcases hqa : q ++ inp.arrivals with _ | ⟨m, rest⟩ <;>
      simp_all <;> split_ifs <;> simp_all

/-- Two states agreeing outside `db` stay in agreement through any run of
further iterations. -/
theorem run_steps_congr_except_db (cfg : Settings) (more : List StepInput) :
    ∀ (a b : PipelineState), eq_except_db a b →
      eq_except_db (run_steps cfg more a) (run_steps cfg more b) := by
  induction more with
  | nil => intro a b h; exact h
  | cons inp rest ih =>
      intro a b h
      have hb : b = { a with db := b.db } := by
        obtain ⟨q1, bt1, lf1, att1, db1⟩ := a
        obtain ⟨q2, bt2, lf2, att2, db2⟩ := b
        obtain ⟨e1, e2, e3, e4⟩ := h
        simp_all
      have hstep : eq_except_db (process_step cfg inp a) (process_step cfg inp b) := by
        rw [hb]
        obtain ⟨s1, s2, s3, s4⟩ :=
          process_step_db_invariant cfg inp a b.db
        exact ⟨s1.symm, s2.symm, s3.symm, s4.symm⟩
      exact ih _ _ hstep

/-- C5: a bulk-insert failure during a flush is absorbed inside
`_flush_batch` — nothing is persisted by the failing iteration, yet the
queue, local batch, timer and flush-attempt log end exactly as they would
have had the insert succeeded (the batch is handed to exactly one flush
attempt and then dropped: no retry, no re-enqueue, no dead-letter), and
every later iteration behaves identically apart from the rows persisted —
the loop neither halts nor sees the exception. -/
theorem C5_sink_failure_absorbed (cfg : Settings) (inp : StepInput)
    (s : PipelineState) (more : List StepInput) :
    (process_step cfg { inp with sinkOk := false } s).db = s.db ∧
    eq_except_db (process_step cfg { inp with sinkOk := false } s)
      (process_step cfg { inp with sinkOk := true } s) ∧
    eq_except_db
      (run_steps cfg more (process_step cfg { inp with sinkOk := false } s))
      (run_steps cfg more (process_step cfg { inp with sinkOk := true } s)) := by
  refine ⟨process_step_sink_down_db cfg _ s rfl, ?_, ?_⟩
  · exact process_step_sink_control cfg inp s false true
  · exact run_steps_congr_except_db cfg more _ _
      (process_step_sink_control cfg inp s false true)

/-- Each iteration conserves events: the concatenation of all flush
attempts, the local batch and the queue grows by exactly the iteration's
arrivals, in order. -/
theorem process_step_conserves (cfg : Settings) (inp : StepInput) (s : PipelineState) :
    (process_step cfg inp s).attempts.flatten ++ (process_step cfg inp s).batch
        ++ (process_step cfg inp s).queue
      = s.attempts.flatten ++ s.batch ++ s.queue ++ inp.arrivals := by
  obtain ⟨q, bt, lf, att, db⟩ := s
  simp only [process_step, flush_batch]
  split_ifs <;>
    rcases hqa : q ++ inp.arrivals with _ | ⟨m, rest⟩ <;>
      simp_all [List.flatten_append, List.append_assoc] <;>
        split_ifs <;> simp_all [List.flatten_append, List.append_assoc]

/-- Conservation over a whole run of the worker loop. -/
theorem run_steps_conserves (cfg : Settings) (inputs : List StepInput) :
    ∀ s : PipelineState,
    (run_steps cfg inputs s).attempts.flatten ++ (run_steps cfg inputs s).batch
        ++ (run_steps cfg inputs s).queue
      = s.attempts.flatten ++ s.batch ++ s.queue ++ (inputs.map StepInput.arrivals).flatten := by
  induction inputs with
  | nil => intro s; simp [run_steps]
  | cons inp rest ih =>
      intro s
      simp only [run_steps, List.map_cons, List.flatten_cons]
      rw [ih (process_step cfg inp s), process_step_conserves]
      simp [List.append_assoc]

/-- The shutdown tail moves everything still buffered into flush attempts:
afterwards the batch and the queue are empty and the flushed total has
absorbed both. -/
theorem stop_drain_conserves (okW okQ : Bool) (s : PipelineState) :
    (stop_drain okW okQ s).attempts.flatten = s.attempts.flatten ++ s.batch ++ s.queue ∧
    (stop_drain okW okQ s).batch = [] ∧
    (stop_drain okW okQ s).queue = [] := by
  obtain ⟨q, bt, lf, att, db⟩ := s
  simp only [stop_drain, flush_batch]
  split_ifs <;> simp_all [List.flatten_append, List.append_assoc]

/-- C4: for every sequence of worker iterations started from the fresh
pipeline state, after the worker loop exits (flushing its in-progress
batch) and `stop` drains the queue and flushes once more, every event that
reached the queue appears in the flush attempts exactly once, in order —
the attempts concatenate to exactly the arrivals — and both buffers are
empty: a clean shutdown drops no enqueued event, whatever the sink
outcomes of the final flush attempts were. -/
theorem C4_clean_shutdown_flushes_every_event (cfg : Settings)
    (inputs : List StepInput) (t0 : Int) (okW okQ : Bool) :
    (stop_drain okW okQ (run_steps cfg inputs (initState t0))).attempts.flatten
        = (inputs.map StepInput.arrivals).flatten ∧
    (stop_drain okW okQ (run_steps cfg inputs (initState t0))).batch = [] ∧
    (stop_drain okW okQ (run_steps cfg inputs (initState t0))).queue = [] := by
  obtain ⟨h1, h2, h3⟩ := stop_drain_conserves okW okQ (run_steps cfg inputs (initState t0))
  refine ⟨?_, h2, h3⟩
  rw [h1, run_steps_conserves]
  simp [initState]

/-- The iteration that dequeues the lone event: with batch size at least 2,
the event moves from the queue into the batch and nothing is flushed. -/
theorem C7_first_step (cfg : Settings) (t0 L : Int) (C : MetricsCreate)
    (A : List (List MetricsCreate)) (D : List MetricsCreate)
    (hB : 2 ≤ cfg.METRICS_BATCH_SIZE) :
    process_step cfg { now := t0, arrivals := [C], sinkOk := true }
        { queue := [], batch := [], last_flush := L, attempts := A, db := D }
      = { queue := [], batch := [C], last_flush := L, attempts := A, db := D } := by
  simp only [process_step, flush_batch]
  rw [if_neg (by rintro ⟨-, h⟩; exact h rfl)]
  have h1 : ¬ (([] ++ [C] : List MetricsCreate).length ≥ cfg.METRICS_BATCH_SIZE) := by
    simp
    omega
  simp [h1]
  omega

/-- A quiet iteration strictly before the flush deadline changes nothing. -/
theorem C7_quiet_step_before_deadline (cfg : Settings) (t L : Int) (ok : Bool)
    (b : List MetricsCreate) (A : List (List MetricsCreate)) (D : List MetricsCreate)
    (ht : t - L < (cfg.METRICS_FLUSH_INTERVAL : Int)) :
    process_step cfg { now := t, arrivals := [], sinkOk := ok }
        { queue := [], batch := b, last_flush := L, attempts := A, db := D }
      = { queue := [], batch := b, last_flush := L, attempts := A, db := D } := by
  simp only [process_step, flush_batch]
  rw [if_neg (by rintro ⟨h1, -⟩; omega)]
  simp

/-- The first quiet iteration at or past the flush deadline flushes the
non-empty batch as one attempt and resets the timer to its own time. -/
theorem C7_quiet_step_at_deadline (cfg : Settings) (t L : Int)
    (b : List MetricsCreate) (A : List (List MetricsCreate)) (D : List MetricsCreate)
    (ht : (cfg.METRICS_FLUSH_INTERVAL : Int) ≤ t - L) (hb : b ≠ []) :
    process_step cfg { now := t, arrivals := [], sinkOk := true }
        { queue := [], batch := b, last_flush := L, attempts := A, db := D }
      = { queue := [], batch := [], last_flush := t, attempts := A ++ [b],
          db := D ++ b } := by
  simp only [process_step, flush_batch]
  rw [if_pos ⟨ht, hb⟩]
  simp [hb]

/-- Quiet polling leaves a fully drained pipeline untouched. -/
theorem run_quiet_on_empty (cfg : Settings) :
    ∀ (ts : List Int) (lf : Int) (A : List (List MetricsCreate))
      (D : List MetricsCreate),
    run_steps cfg (quiet_steps ts)
        { queue := [], batch := [], last_flush := lf, attempts := A, db := D }
      = { queue := [], batch := [], last_flush := lf, attempts := A, db := D } := by
  intro ts
  induction ts with
  | nil =>
      intro lf A D
      simp [quiet_steps, run_steps]
  | cons t rest ih =>
      intro lf A D
      have hstep : process_step cfg { now := t, arrivals := [], sinkOk := true }
          { queue := [], batch := [], last_flush := lf, attempts := A, db := D }
          = { queue := [], batch := [], last_flush := lf, attempts := A, db := D } := by
        simp only [process_step, flush_batch]
        rw [if_neg (by rintro ⟨-, h⟩; exact h rfl)]
        simp
      rw [show quiet_steps (t :: rest)
          = { now := t, arrivals := [], sinkOk := true } :: quiet_steps rest from rfl]
      simp only [run_steps]
      rw [hstep]
      exact ih lf A D

/-- Once the lone event sits in the batch, the first quiet poll at or past
the deadline `last_flush + F` flushes it (exactly once), and — polls being
at most one poll interval apart — that poll is not later than one poll
interval after the deadline is first reachable. -/
theorem C7_aux (cfg : Settings) (L bound : Int) (C : MetricsCreate)
    (A : List (List MetricsCreate)) (D : List MetricsCreate)
    (hLb : L + (cfg.METRICS_FLUSH_INTERVAL : Int) ≤ bound) :
    ∀ (ts : List Int) (prev : Int), prev ≤ bound →
    List.Chain (fun a b => a ≤ b ∧ b ≤ a + 1) prev ts →
    (∃ t ∈ ts, L + (cfg.METRICS_FLUSH_INTERVAL : Int) ≤ t) →
    ∃ T ∈ ts,
      run_steps cfg (quiet_steps ts)
          { queue := [], batch := [C], last_flush := L, attempts := A, db := D }
        = { queue := [], batch := [], last_flush := T, attempts := A ++ [[C]],
            db := D ++ [C] } ∧
      L + (cfg.METRICS_FLUSH_INTERVAL : Int) ≤ T ∧ T ≤ bound + 1 := by
  intro ts
  induction ts with
  | nil =>
      intro prev hp hchain hex
      simp at hex
  | cons t rest ih =>
      intro prev hp hchain hex
      rcases hchain with _ | ⟨⟨hpt, htp⟩, hchain'⟩
      by_cases hdead : L + (cfg.METRICS_FLUSH_INTERVAL : Int) ≤ t
      · refine ⟨t, List.mem_cons_self t rest, ?_, hdead, by omega⟩
        rw [show quiet_steps (t :: rest)
            = { now := t, arrivals := [], sinkOk := true } :: quiet_steps rest from rfl]
        simp only [run_steps]
        rw [C7_quiet_step_at_deadline cfg t L [C] A D (by omega) (by simp)]
        exact run_quiet_on_empty cfg rest t (A ++ [[C]]) (D ++ [C])
      · have hstep := C7_quiet_step_before_deadline cfg t L true [C] A D (by omega)
        obtain ⟨tw, htw, hdw⟩ := hex
        have htw2 : tw ∈ rest := by
          rcases List.mem_cons.1 htw with h | h
          · exfalso
            rw [h] at hdw
            omega
          · exact h
        obtain ⟨T, hT, hrun, h1, h2⟩ := ih t (by omega) hchain' ⟨tw, htw2, hdw⟩
        refine ⟨T, List.mem_cons_of_mem t hT, ?_, h1, h2⟩
        rw [show quiet_steps (t :: rest)
            = { now := t, arrivals := [], sinkOk := true } :: quiet_steps rest from rfl]
        simp only [run_steps]
        rw [hstep]
        exact hrun

/-- C7: fewer than B events (here: one event C, batch size at least 2) and
quiet polling afterwards.  The worker's polls run at most one second apart
(the 1-second `wait_for` timeout); C reaches the queue at wall time e — at
or after the last flush at L — and is dequeued by the poll at t0 ≤ e + 1.
Then the time trigger produces exactly one flush, containing exactly [C],
at the first poll time T past the deadline, with
L + F ≤ T (never before F seconds have elapsed since the last flush) and
T ≤ e + F + 1 (within F plus one poll interval of the enqueue time). -/
theorem C7_time_trigger_window (cfg : Settings) (L e t0 : Int) (ts : List Int)
    (C : MetricsCreate) (A : List (List MetricsCreate)) (D : List MetricsCreate)
    (hB : 2 ≤ cfg.METRICS_BATCH_SIZE)
    (hF : 1 ≤ cfg.METRICS_FLUSH_INTERVAL)
    (hLe : L ≤ e) (het0 : e ≤ t0) (ht0 : t0 ≤ e + 1)
    (hchain : List.Chain (fun a b => a ≤ b ∧ b ≤ a + 1) t0 ts)
    (hreach : ∃ t ∈ ts, L + (cfg.METRICS_FLUSH_INTERVAL : Int) ≤ t) :
    ∃ T ∈ ts,
      run_steps cfg ({ now := t0, arrivals := [C], sinkOk := true } :: quiet_steps ts)
          { queue := [], batch := [], last_flush := L, attempts := A, db := D }
        = { queue := [], batch := [], last_flush := T, attempts := A ++ [[C]],
            db := D ++ [C] } ∧
      L + (cfg.METRICS_FLUSH_INTERVAL : Int) ≤ T ∧
      T ≤ e + (cfg.METRICS_FLUSH_INTERVAL : Int) + 1 := by
  have hFi : (1 : Int) ≤ (cfg.METRICS_FLUSH_INTERVAL : Int) := by exact_mod_cast hF
  obtain ⟨T, hT, hrun, h1, h2⟩ :=
    C7_aux cfg L (e + (cfg.METRICS_FLUSH_INTERVAL : Int)) C A D (by omega)
      ts t0 (by omega) hchain hreach
  refine ⟨T, hT, ?_, h1, by omega⟩
  simp only [run_steps]
  rw [C7_first_step cfg t0 L C A D hB]
  exact hrun

/-- Witness for C7: default settings (batch size 10, flush interval 5),
last flush and enqueue at time 0, the dequeuing poll at 0 and quiet polls
at 1..5: exactly one flush, containing [m0], fires at T = 5 ∈ [5, 6]. -/
theorem C7_time_trigger_window_witness :
    ∃ T ∈ ([1, 2, 3, 4, 5] : List Int),
      run_steps defaultSettings
          ({ now := 0, arrivals := [m0], sinkOk := true }
            :: quiet_steps [1, 2, 3, 4, 5])
          { queue := [], batch := [], last_flush := 0, attempts := [], db := [] }
        = { queue := [], batch := [], last_flush := T, attempts := [] ++ [[m0]],
            db := [] ++ [m0] } ∧
      0 + (defaultSettings.METRICS_FLUSH_INTERVAL : Int) ≤ T ∧
      T ≤ 0 + (defaultSettings.METRICS_FLUSH_INTERVAL : Int) + 1 :=
  C7_time_trigger_window defaultSettings 0 0 0 [1, 2, 3, 4, 5] m0 [] []
    (by decide) (by decide) (by decide) (by decide) (by decide)
    (List.Chain.cons (by decide) (List.Chain.cons (by decide)
      (List.Chain.cons (by decide) (List.Chain.cons (by decide)
        (List.Chain.cons (by decide) List.Chain.nil)))))
    (by decide)
